import Mathlib

/-!
Verification of the image-processing core of `src/app.py` (sketch-to-render
pipeline).  The two functions with algorithmic content are

  * `process_clean_sketch` (app.py lines 59-65): decode uploaded bytes to
    grayscale with `cv2.imdecode(..., IMREAD_GRAYSCALE)` and binarize with
    `cv2.adaptiveThreshold(img, 255, ADAPTIVE_THRESH_GAUSSIAN_C,
    THRESH_BINARY, 31, 5)`;
  * `process_multiply` (app.py lines 67-72): resize the sketch to the
    size of the render when the sizes differ, convert both images to RGB with
    PIL `Image.convert`, and blend with `ImageChops.multiply`.

The shallow embedding below models images as width/height/mode plus a total
pixel map.  Library internals that the source calls are embedded by their
documented and implemented semantics:

  * `ImageChops.multiply` uses the exact Pillow 8-bit kernel
    `MULDIV255(a, b) = ((a*b + 128) >> 8 + (a*b + 128)) >> 8`;
  * `Image.convert` to RGB broadcasts a single-channel value across the
    three channels and copies an already-RGB image unchanged;
  * `Image.resize` rejects a target with zero width or height (the Pillow
    ValueError saying height and width must be positive) and otherwise produces an
    image of the target size and the source mode; the resampled pixel
    values themselves come from the Pillow floating-point bicubic filter and
    are modelled by an arbitrary `Resample` parameter whose outputs are
    clipped to `[0,255]` exactly as the Pillow clip8 routine does;
  * `cv2.adaptiveThreshold(img, maxValue, ADAPTIVE_THRESH_GAUSSIAN_C,
    THRESH_BINARY, blockSize, C)` sets a pixel to `maxValue` when
    `src > mean - C` and to `0` otherwise, where `mean` is the rounded
    Gaussian-weighted 31x31 local mean; since OpenCV computes that mean in
    floating point it is modelled by an arbitrary `GaussMean` parameter;
  * `cv2.imdecode` returns the decoded grayscale image, or `None` for
    bytes that are not a raster image, modelled by a `Decoder` parameter.
-/

namespace DesignBot

/-- Raw uploaded bytes (the value of `uploaded_file.read()` /
`bytearray(...)` in `process_clean_sketch`). -/
abbrev Bytes := List Nat

/-- The two color modes of the data model: single-channel 8-bit grayscale
(`L` in PIL) and three-channel 8-bit `RGB`. -/
inductive Mode where
  | L
  | RGB
deriving DecidableEq, Repr

/-- One pixel: either a single gray channel or an RGB triple. -/
inductive Pixel where
  | gray (v : Nat)
  | rgb (r g b : Nat)
deriving DecidableEq, Repr

/-- A raster image: dimensions, mode and a total pixel map. -/
structure Img where
  width : Nat
  height : Nat
  mode : Mode
  px : Nat → Nat → Pixel

/-- The size of an image as PIL exposes it: `(width, height)`. -/
def imsize (img : Img) : Nat × Nat := (img.width, img.height)

/-- A pixel is well formed for a mode when its constructor matches the mode
and every channel is an 8-bit value. -/
def PixelWF : Mode → Pixel → Prop
  | .L, .gray v => v ≤ 255
  | .RGB, .rgb r g b => r ≤ 255 ∧ g ≤ 255 ∧ b ≤ 255
  | _, _ => False

instance : ∀ m p, Decidable (PixelWF m p) := by
  intro m p
  cases m <;> cases p <;> simp [PixelWF] <;> infer_instance

/-- A well-formed image: every pixel matches the mode and is 8-bit. -/
def ImgWF (img : Img) : Prop := ∀ x y, PixelWF img.mode (img.px x y)

/-- Red channel of a pixel (a gray pixel has the same value in every
channel). -/
def pxR : Pixel → Nat
  | .gray v => v
  | .rgb r _ _ => r

/-- Green channel of a pixel. -/
def pxG : Pixel → Nat
  | .gray v => v
  | .rgb _ g _ => g

/-- Blue channel of a pixel. -/
def pxB : Pixel → Nat
  | .gray v => v
  | .rgb _ _ b => b

/-- The single channel of a `CV_8UC1` (grayscale) OpenCV matrix pixel. -/
def grayVal : Pixel → Nat
  | .gray v => v
  | .rgb r _ _ => r

/-- Exact Pillow multiply-blend kernel for 8-bit channels
(`MULDIV255(a, b, tmp) = (tmp = a*b + 128, ((tmp >> 8) + tmp) >> 8)` in
`ImageChops.multiply` / `ChopMultiply`). -/
def muldiv255 (a b : Nat) : Nat :=
  ((a * b + 128) / 256 + (a * b + 128)) / 256

/-- The per-pixel multiply formula of the spec: `round(a * m / 255)`.  Since
`a*m/255` never has fractional part exactly one half, rounding to nearest
equals `(a*m + 127) / 255` in integer division. -/
def specMultiplyPixel (a m : Nat) : Nat := (a * m + 127) / 255

/-- Pillow conversion of an RGB value to `L` (ITU-R 601-2 luma,
`L = (R*19595 + G*38470 + B*7471 + 0x8000) >> 16`); a gray pixel is its own
intensity.  This is the grayscale intensity that the compositing
formula of the spec refers to. -/
def maskGrayIntensity : Pixel → Nat
  | .gray v => v
  | .rgb r g b => (r * 19595 + g * 38470 + b * 7471 + 32768) / 65536

theorem muldiv255_eq_round (a b : Nat) (ha : a ≤ 255) (hb : b ≤ 255) :
    muldiv255 a b = specMultiplyPixel a b := by
  unfold muldiv255 specMultiplyPixel
  have hp : a * b ≤ 65025 := Nat.mul_le_mul ha hb
  have h1 := Nat.div_add_mod (a * b + 128) 256
  have h2 := Nat.div_add_mod (a * b + 127) 255
  have h3 := Nat.div_add_mod ((a * b + 128) / 256 + (a * b + 128)) 256
  have m1 : (a * b + 128) % 256 < 256 := Nat.mod_lt _ (by norm_num)
  have m2 : (a * b + 127) % 255 < 255 := Nat.mod_lt _ (by norm_num)
  have m3 : ((a * b + 128) / 256 + (a * b + 128)) % 256 < 256 :=
    Nat.mod_lt _ (by norm_num)
  omega

theorem muldiv255_le_255 (a b : Nat) (ha : a ≤ 255) (hb : b ≤ 255) :
    muldiv255 a b ≤ 255 := by
  rw [muldiv255_eq_round a b ha hb]
  unfold specMultiplyPixel
  have hp : a * b ≤ 65025 := Nat.mul_le_mul ha hb
  omega

theorem muldiv255_mono (a : Nat) {b b' : Nat} (h : b ≤ b') :
    muldiv255 a b ≤ muldiv255 a b' := by
  unfold muldiv255
  have h1 : a * b + 128 ≤ a * b' + 128 := by
    have := Nat.mul_le_mul_left a h
    omega
  have h2 : (a * b + 128) / 256 ≤ (a * b' + 128) / 256 :=
    Nat.div_le_div_right h1
  exact Nat.div_le_div_right (by omega)

theorem muldiv255_white (a : Nat) (ha : a ≤ 255) : muldiv255 a 255 = a := by
  rw [muldiv255_eq_round a 255 ha (by norm_num)]
  unfold specMultiplyPixel
  have h := Nat.div_add_mod (a * 255 + 127) 255
  have m : (a * 255 + 127) % 255 < 255 := Nat.mod_lt _ (by norm_num)
  omega

theorem muldiv255_le_left (a b : Nat) (ha : a ≤ 255) (hb : b ≤ 255) :
    muldiv255 a b ≤ a := by
  rw [muldiv255_eq_round a b ha hb]
  unfold specMultiplyPixel
  have h1 : a * b ≤ a * 255 := Nat.mul_le_mul_left a hb
  have h2 := Nat.div_add_mod (a * b + 127) 255
  have m : (a * b + 127) % 255 < 255 := Nat.mod_lt _ (by norm_num)
  omega

/-- Errors Pillow can raise inside `process_multiply`: the
`height and width must be > 0` ValueError of `Image.resize`, and the
`images do not match` error of `ImageChops` on a size or mode mismatch. -/
inductive PilError where
  | valueError
  | mismatch
deriving DecidableEq, Repr

/-- The resampled channel values of Pillow `Image.resize` (floating-point
bicubic filtering by default).  Modelled as an arbitrary map from source
image, target size and target position to a channel triple; `resizeModel`
below clips each channel to `[0,255]` as the Pillow clip8 routine does. -/
abbrev Resample := Img → Nat × Nat → Nat → Nat → Nat × Nat × Nat

/-- Model of the Pillow clip8 routine: clamp a resampled accumulator into an 8-bit value
(the model has no negatives, so only the upper clamp is visible). -/
def clip8 (n : Nat) : Nat := min n 255

/-- Model of `Image.resize`: fails on a target of zero width or height
(Pillow raises a ValueError saying height and width must be positive);
otherwise the result has the target size, the source mode, and resampled
8-bit pixels. -/
def resizeModel (resample : Resample) (img : Img) (sz : Nat × Nat) :
    Except PilError Img :=
  if sz.1 < 1 ∨ sz.2 < 1 then .error .valueError
  else .ok
    { width := sz.1, height := sz.2, mode := img.mode,
      px := fun x y =>
        match img.mode with
        | .L => .gray (clip8 (resample img sz x y).1)
        | .RGB => .rgb (clip8 (resample img sz x y).1)
            (clip8 (resample img sz x y).2.1)
            (clip8 (resample img sz x y).2.2) }

/-- Model of `Image.convert` to RGB: a gray value is broadcast identically across
the three channels; an RGB pixel is copied unchanged (PIL returns
`self.copy()` when the mode already matches). -/
def convertRGB (img : Img) : Img :=
  { width := img.width, height := img.height, mode := .RGB,
    px := fun x y =>
      match img.px x y with
      | .gray v => .rgb v v v
      | .rgb r g b => .rgb r g b }

/-- The per-pixel action of `ImageChops.multiply` (both operands have the
same mode when it is reached; the mixed case is unreachable and maps to
a gray zero pixel). -/
def multiplyPx : Pixel → Pixel → Pixel
  | .gray a, .gray b => .gray (muldiv255 a b)
  | .rgb r g b, .rgb r' g' b' =>
      .rgb (muldiv255 r r') (muldiv255 g g') (muldiv255 b b')
  | _, _ => .gray 0

/-- The successful result of `ImageChops.multiply`. -/
def multiplyCore (a b : Img) : Img :=
  { width := a.width, height := a.height, mode := a.mode,
    px := fun x y => multiplyPx (a.px x y) (b.px x y) }

/-- Model of `ImageChops.multiply`: raises an images-do-not-match error when sizes or
modes differ, else blends channel-wise with `muldiv255`. -/
def multiplyChops (a b : Img) : Except PilError Img :=
  if imsize a ≠ imsize b ∨ a.mode ≠ b.mode then .error .mismatch
  else .ok (multiplyCore a b)

/-- app.py lines 68-69: `if render_img.size != sketch_img.size:
sketch_img = sketch_img.resize(render_img.size)`. -/
def reconcileSize (resample : Resample) (render sketch : Img) :
    Except PilError Img :=
  if imsize render ≠ imsize sketch then
    resizeModel resample sketch (imsize render)
  else .ok sketch

/-- app.py lines 67-72, `process_multiply`: resize the sketch when the
sizes differ, convert both images to RGB, multiply-blend. -/
def processMultiply (resample : Resample) (render sketch : Img) :
    Except PilError Img :=
  match reconcileSize resample render sketch with
  | .error e => .error e
  | .ok sk => multiplyChops (convertRGB render) (convertRGB sk)

theorem convertRGB_px (i : Img) (x y : Nat) :
    (convertRGB i).px x y =
      .rgb (pxR (i.px x y)) (pxG (i.px x y)) (pxB (i.px x y)) := by
  cases h : i.px x y <;> simp [convertRGB, pxR, pxG, pxB, h]

theorem convertRGB_wf {i : Img} (h : ImgWF i) : ImgWF (convertRGB i) := by
  intro x y
  have hp := h x y
  have hmode : (convertRGB i).mode = Mode.RGB := rfl
  rw [hmode, convertRGB_px]
  cases hm : i.mode <;> rw [hm] at hp <;> cases hpx : i.px x y <;>
    rw [hpx] at hp <;> simp [PixelWF, pxR, pxG, pxB] at hp ⊢ <;> omega

theorem reconcileSize_ok_size {resample : Resample} {render sketch m : Img}
    (h : reconcileSize resample render sketch = .ok m) :
    imsize m = imsize render := by
  unfold reconcileSize resizeModel at h
  split at h
  · split at h
    · exact absurd h (by simp)
    · injection h with h2
      rw [← h2]
      rfl
  next hs =>
    injection h with h2
    rw [← h2]
    exact (not_ne_iff.mp hs).symm

theorem reconcileSize_ok_mode {resample : Resample} {render sketch m : Img}
    (h : reconcileSize resample render sketch = .ok m) :
    m.mode = sketch.mode := by
  unfold reconcileSize resizeModel at h
  split at h
  · split at h
    · exact absurd h (by simp)
    · injection h with h2
      rw [← h2]
  · injection h with h2
    rw [← h2]

theorem reconcileSize_ok_wf {resample : Resample} {render sketch m : Img}
    (hwf : ImgWF sketch)
    (h : reconcileSize resample render sketch = .ok m) : ImgWF m := by
  unfold reconcileSize resizeModel at h
  split at h
  · split at h
    · exact absurd h (by simp)
    · injection h with h2
      rw [← h2]
      intro x y
      cases hm : sketch.mode <;> simp [hm, PixelWF, clip8]
  · injection h with h2
    rw [← h2]
    exact hwf

theorem reconcileSize_ok_of_pos {resample : Resample} {render sketch : Img}
    (hw : 1 ≤ render.width) (hh : 1 ≤ render.height) :
    ∃ m, reconcileSize resample render sketch = .ok m := by
  unfold reconcileSize resizeModel
  split
  · rw [if_neg]
    · exact ⟨_, rfl⟩
    · unfold imsize
      omega
  · exact ⟨sketch, rfl⟩

/-- The failure of `process_clean_sketch` on undecodable bytes:
`cv2.imdecode` returns `None` and the subsequent `cv2.adaptiveThreshold`
call raises (the `DecodeError` of the spec). -/
inductive DecodeError where
  | decodeError
deriving DecidableEq, Repr

/-- Model of `cv2.imdecode(..., IMREAD_GRAYSCALE)`: `none` exactly on
bytes that are not a raster image, otherwise the decoded grayscale image.
The actual codecs (JPEG, PNG, ...) are external to the repository, so the
decoder is a parameter of the model. -/
abbrev Decoder := Bytes → Option Img

/-- Model of the rounded Gaussian-weighted 31x31 local mean that
`cv2.adaptiveThreshold(..., ADAPTIVE_THRESH_GAUSSIAN_C, ..., 31, ...)`
computes for each pixel (OpenCV: `GaussianBlur` with kernel size 31 and
the derived sigma 5, `BORDER_REPLICATE` edge policy, rounded to 8 bits).
OpenCV evaluates it in floating point, so the mean map is a parameter of
the model. -/
abbrev GaussMean := Img → Nat → Nat → Nat

/-- Model of `cv2.adaptiveThreshold(img, maxValue, ADAPTIVE_THRESH_GAUSSIAN_C,
THRESH_BINARY, 31, c)`: a pixel becomes `maxValue` when its value is
strictly greater than `mean - c` and `0` otherwise (OpenCV thresholding
table for `THRESH_BINARY`: `src - mean > -c`). -/
def adaptiveThresholdG (gauss : GaussMean) (img : Img) (maxValue : Nat)
    (c : Int) : Img :=
  { width := img.width, height := img.height, mode := .L,
    px := fun x y =>
      .gray (if (grayVal (img.px x y) : Int) > (gauss img x y : Int) - c
        then maxValue else 0) }

/-- app.py lines 59-65, `process_clean_sketch`: decode the uploaded bytes
as grayscale and binarize with adaptive Gaussian thresholding, block size
31, bias 5, maximum value 255.  When decoding fails `cv2.imdecode`
returns `None` and the `cv2.adaptiveThreshold` call raises. -/
def processCleanSketch (decode : Decoder) (gauss : GaussMean) (b : Bytes) :
    Except DecodeError Img :=
  match decode b with
  | none => .error .decodeError
  | some img => .ok (adaptiveThresholdG gauss img 255 5)

/-- The classification rule of claim C1, exactly as the spec words it:
foreground `0` when the pixel is strictly below the locally adjusted
threshold `mean - 5`, else background `255`. -/
def specC1Pixel (src mean : Nat) : Nat :=
  if (src : Int) < (mean : Int) - 5 then 0 else 255

/-- The amended classification rule: foreground `0` when the pixel is at
or below the locally adjusted threshold `mean - 5`, else background
`255`.  (This is what `THRESH_BINARY` computes.) -/
def specC1PixelAmended (src mean : Nat) : Nat :=
  if (src : Int) ≤ (mean : Int) - 5 then 0 else 255

/-- Ambient state the claims about purity quantify over: wall clock and
randomness.  `app.py` uses `time` and `uuid` only in the vendor-API glue
(`get_liblib_headers`, `call_liblib_api`), never in the two core image
operations. -/
structure World where
  clock : Nat
  randomSeed : Nat
deriving DecidableEq, Repr

/-- Run of `process_clean_sketch` against ambient state: the body
(lines 60-65) reads neither the clock nor any randomness and writes no
state outside its locals, so running it maps the world to itself. -/
def processCleanSketchRun (decode : Decoder) (gauss : GaussMean)
    (w : World) (b : Bytes) : Except DecodeError Img × World :=
  (processCleanSketch decode gauss b, w)

/-- Run of `process_multiply` against ambient state (lines 67-72
read no clock, randomness or globals). -/
def processMultiplyRun (resample : Resample) (w : World)
    (render sketch : Img) : Except PilError Img × World :=
  (processMultiply resample render sketch, w)

/-- Placeholder image a dangling reference reads in the heap model. -/
def defaultImg : Img :=
  { width := 0, height := 0, mode := .L, px := fun _ _ => .gray 0 }

/-- A heap of PIL image objects; references are list indices. -/
structure Store where
  imgs : List Img

/-- Read an image object from the heap. -/
def readImg (s : Store) (i : Nat) : Img := s.imgs.getD i defaultImg

/-- Allocate a fresh image object, returning the grown heap and the fresh
reference. -/
def allocImg (s : Store) (im : Img) : Store × Nat :=
  ({ imgs := s.imgs ++ [im] }, s.imgs.length)

/-- One `convert` call in the heap model: read the object, build
the converted copy, allocate it (PIL convert returns a copy even when
the mode already matches). -/
def convAlloc (s : Store) (ref : Nat) : Store × Nat :=
  allocImg s (convertRGB (readImg s ref))

/-- Lines 70-72 of `process_multiply` in the heap model: both `convert`
calls allocate new objects, as does `ImageChops.multiply`. -/
def processMultiplyTail (s : Store) (rRef skRef : Nat) :
    Store × Except PilError Nat :=
  match multiplyChops
      (readImg (convAlloc (convAlloc s rRef).1 skRef).1
        (convAlloc s rRef).2)
      (readImg (convAlloc (convAlloc s rRef).1 skRef).1
        (convAlloc (convAlloc s rRef).1 skRef).2) with
  | .error e => ((convAlloc (convAlloc s rRef).1 skRef).1, .error e)
  | .ok out =>
      ((allocImg (convAlloc (convAlloc s rRef).1 skRef).1 out).1,
        .ok (allocImg (convAlloc (convAlloc s rRef).1 skRef).1 out).2)

/-- app.py lines 67-72 in the heap model: `resize` (when the sizes
differ) allocates a new object and only the local variable is rebound;
no call mutates an existing object. -/
def processMultiplyHeap (resample : Resample) (s : Store)
    (rRef skRef : Nat) : Store × Except PilError Nat :=
  if imsize (readImg s rRef) ≠ imsize (readImg s skRef) then
    match resizeModel resample (readImg s skRef)
        (imsize (readImg s rRef)) with
    | .error e => (s, .error e)
    | .ok sk => processMultiplyTail (allocImg s sk).1 rRef
        (allocImg s sk).2
  else processMultiplyTail s rRef skRef

theorem readImg_alloc_lt (s : Store) (im : Img) {i : Nat}
    (h : i < s.imgs.length) : readImg (allocImg s im).1 i = readImg s i := by
  unfold readImg allocImg
  simp [List.getElem?_append_left h]

theorem alloc_len (s : Store) (im : Img) :
    (allocImg s im).1.imgs.length = s.imgs.length + 1 := by
  simp [allocImg]

theorem readImg_convAlloc_lt (s : Store) (ref : Nat) {i : Nat}
    (h : i < s.imgs.length) : readImg (convAlloc s ref).1 i = readImg s i :=
  readImg_alloc_lt s _ h

theorem convAlloc_len (s : Store) (ref : Nat) :
    (convAlloc s ref).1.imgs.length = s.imgs.length + 1 :=
  alloc_len s _

theorem processMultiplyTail_frame (s : Store) (rRef skRef : Nat) :
    (∀ i, i < s.imgs.length →
      readImg (processMultiplyTail s rRef skRef).1 i = readImg s i) ∧
    (∀ o, (processMultiplyTail s rRef skRef).2 = .ok o →
      s.imgs.length ≤ o) := by
  unfold processMultiplyTail
  have hl1 : (convAlloc s rRef).1.imgs.length = s.imgs.length + 1 :=
    convAlloc_len s rRef
  have hl2 : (convAlloc (convAlloc s rRef).1 skRef).1.imgs.length =
      s.imgs.length + 2 := by
    rw [convAlloc_len, hl1]
  cases hm : multiplyChops
      (readImg (convAlloc (convAlloc s rRef).1 skRef).1
        (convAlloc s rRef).2)
      (readImg (convAlloc (convAlloc s rRef).1 skRef).1
        (convAlloc (convAlloc s rRef).1 skRef).2) with
  | error e =>
      refine ⟨fun i hi => ?_, fun o ho => by simp at ho⟩
      have h1 : i < (convAlloc s rRef).1.imgs.length := by omega
      calc readImg (convAlloc (convAlloc s rRef).1 skRef).1 i
          = readImg (convAlloc s rRef).1 i := readImg_convAlloc_lt _ _ h1
        _ = readImg s i := readImg_convAlloc_lt _ _ hi
  | ok out =>
      constructor
      · intro i hi
        have h1 : i < (convAlloc s rRef).1.imgs.length := by omega
        have h2 : i < (convAlloc (convAlloc s rRef).1 skRef).1.imgs.length :=
          by omega
        calc readImg (allocImg (convAlloc (convAlloc s rRef).1 skRef).1
              out).1 i
            = readImg (convAlloc (convAlloc s rRef).1 skRef).1 i :=
              readImg_alloc_lt _ _ h2
          _ = readImg (convAlloc s rRef).1 i := readImg_convAlloc_lt _ _ h1
          _ = readImg s i := readImg_convAlloc_lt _ _ hi
      · intro o ho
        simp only [Except.ok.injEq] at ho
        have hfr : (allocImg (convAlloc (convAlloc s rRef).1 skRef).1
            out).2 = (convAlloc (convAlloc s rRef).1 skRef).1.imgs.length :=
          rfl
        omega

/-- Claim C10: `process_multiply` mutates neither of its argument image
objects — every object present before the call reads back unchanged — and
any composite it returns is a freshly allocated object distinct from both
argument references. -/
theorem processMultiplyHeap_frame (resample : Resample) (s : Store)
    (rRef skRef : Nat) (hr : rRef < s.imgs.length)
    (hk : skRef < s.imgs.length) :
    (∀ i, i < s.imgs.length →
      readImg (processMultiplyHeap resample s rRef skRef).1 i =
        readImg s i) ∧
    (∀ o, (processMultiplyHeap resample s rRef skRef).2 = .ok o →
      o ≠ rRef ∧ o ≠ skRef) := by
  unfold processMultiplyHeap
  split
  · cases hres : resizeModel resample (readImg s skRef)
        (imsize (readImg s rRef)) with
    | error e => exact ⟨fun i _ => rfl, fun o ho => by simp at ho⟩
    | ok sk =>
        obtain ⟨hpres, hfresh⟩ :=
          processMultiplyTail_frame (allocImg s sk).1 rRef (allocImg s sk).2
        have hlen : (allocImg s sk).1.imgs.length = s.imgs.length + 1 :=
          alloc_len s sk
        constructor
        · intro i hi
          have h1 : i < (allocImg s sk).1.imgs.length := by omega
          calc readImg (processMultiplyTail (allocImg s sk).1 rRef
                (allocImg s sk).2).1 i
              = readImg (allocImg s sk).1 i := hpres i h1
            _ = readImg s i := readImg_alloc_lt s sk hi
        · intro o ho
          have := hfresh o ho
          omega
  · obtain ⟨hpres, hfresh⟩ := processMultiplyTail_frame s rRef skRef
    refine ⟨hpres, fun o ho => ?_⟩
    have := hfresh o ho
    omega

/-- Whether a PIL-level operation succeeded (`true`) or raised (`false`). -/
def exceptOk {ε α : Type _} : Except ε α → Bool
  | .ok _ => true
  | .error _ => false

theorem multiplyChops_ok_of {a b : Img} (h1 : imsize a = imsize b)
    (h2 : a.mode = b.mode) : multiplyChops a b = .ok (multiplyCore a b) := by
  unfold multiplyChops
  rw [if_neg]
  push_neg
  exact ⟨h1, h2⟩

theorem grayPx_of_L {i : Img} (hL : i.mode = .L) (hwf : ImgWF i)
    (x y : Nat) : ∃ v, v ≤ 255 ∧ i.px x y = .gray v := by
  have hp := hwf x y
  rw [hL] at hp
  cases hpx : i.px x y with
  | gray v =>
      rw [hpx] at hp
      exact ⟨v, hp, rfl⟩
  | rgb r g b =>
      rw [hpx] at hp
      simp [PixelWF] at hp

theorem rgbPx_of_RGB {i : Img} (hm : i.mode = .RGB) (hwf : ImgWF i)
    (x y : Nat) : ∃ r g b, r ≤ 255 ∧ g ≤ 255 ∧ b ≤ 255 ∧
      i.px x y = .rgb r g b := by
  have hp := hwf x y
  rw [hm] at hp
  cases hpx : i.px x y with
  | gray v =>
      rw [hpx] at hp
      simp [PixelWF] at hp
  | rgb r g b =>
      rw [hpx] at hp
      obtain ⟨h1, h2, h3⟩ := hp
      exact ⟨r, g, b, h1, h2, h3, rfl⟩

theorem reconcileSize_ok_cases {resample : Resample} {render sketch m : Img}
    (h : reconcileSize resample render sketch = .ok m) :
    imsize render = imsize sketch ∨
      (1 ≤ render.width ∧ 1 ≤ render.height) := by
  unfold reconcileSize resizeModel at h
  split at h
  · split at h
    next hz => exact absurd h (by simp)
    next hz =>
      right
      simp [imsize] at hz
      omega
  next hs =>
    left
    exact not_ne_iff.mp hs

/-- A dummy instantiation of the resampling-filter parameter, used only to
evaluate the model at concrete inputs. -/
def resample0 : Resample := fun _ _ _ _ => (0, 0, 0)

theorem pixelWF_rgb {r g b : Nat} (hr : r ≤ 255) (hg : g ≤ 255)
    (hb : b ≤ 255) : PixelWF .RGB (.rgb r g b) := ⟨hr, hg, hb⟩

theorem pixelWF_gray {v : Nat} (hv : v ≤ 255) : PixelWF .L (.gray v) := hv

/-- A degenerate zero-by-zero image. -/
def img00 : Img :=
  { width := 0, height := 0, mode := .L, px := fun _ _ => .gray 0 }

/-- Claim C5: `process_clean_sketch` fails (with the decode failure the
spec calls `DecodeError`: `cv2.imdecode` returns `None` and the
`adaptiveThreshold` call on `None` raises) exactly when the supplied
bytes cannot be decoded as a raster image, and succeeds on every
decodable input. -/
theorem clean_decode_error_iff (decode : Decoder) (gauss : GaussMean)
    (b : Bytes) :
    processCleanSketch decode gauss b = .error .decodeError ↔
      decode b = none := by
  unfold processCleanSketch
  cases h : decode b <;> simp

/-- Claim C9: both core operations are deterministic pure functions —
their result depends only on their arguments (two runs against different
ambient worlds agree) and they leave the ambient world untouched. -/
theorem core_deterministic_pure (decode : Decoder) (gauss : GaussMean)
    (resample : Resample) (w w' : World) (b : Bytes)
    (render sketch : Img) :
    (processCleanSketchRun decode gauss w b).1 =
      (processCleanSketchRun decode gauss w' b).1 ∧
    (processCleanSketchRun decode gauss w b).2 = w ∧
    (processMultiplyRun resample w render sketch).1 =
      (processMultiplyRun resample w' render sketch).1 ∧
    (processMultiplyRun resample w render sketch).2 = w :=
  ⟨rfl, rfl, rfl, rfl⟩

/-- Claim C6 counterexample: `process_multiply` contains no dimension
check at all.  On the degenerate pair of zero-by-zero images (equal
sizes, so no resize happens) it succeeds and returns an image instead of
raising the claimed `DimensionError`. -/
theorem composite_dimension_error_cex :
    exceptOk (processMultiply resample0 img00 img00) = true := rfl

/-- Claim C6 (amended): `process_multiply` raises no `DimensionError` (no
such check exists in the code).  It succeeds whenever the mask size
equals the render size — even on degenerate images — and when the sizes
differ it fails (with the Pillow `resize` ValueError) exactly when the
render has zero width or height. -/
theorem composite_ok_iff (resample : Resample) (render sketch : Img) :
    exceptOk (processMultiply resample render sketch) = true ↔
      (imsize render = imsize sketch ∨
        (1 ≤ render.width ∧ 1 ≤ render.height)) := by
  unfold processMultiply
  cases h : reconcileSize resample render sketch with
  | error e =>
      unfold reconcileSize resizeModel at h
      split at h
      next hs =>
        split at h
        next hz =>
          simp [exceptOk]
          push_neg
          refine ⟨hs, fun hw => ?_⟩
          simp [imsize] at hz
          omega
        next => exact absurd h (by simp)
      next => exact absurd h (by simp)
  | ok m =>
      have hsz : imsize (convertRGB render) = imsize (convertRGB m) := by
        have hs := reconcileSize_ok_size h
        simp [imsize, convertRGB] at hs ⊢
        omega
      have hred : (match (Except.ok m : Except PilError Img) with
          | Except.error e => (Except.error e : Except PilError Img)
          | Except.ok sk => multiplyChops (convertRGB render)
              (convertRGB sk)) =
          multiplyChops (convertRGB render) (convertRGB m) := rfl
      rw [hred, multiplyChops_ok_of hsz rfl]
      simp [exceptOk]
      exact reconcileSize_ok_cases h

/-- A one-pixel grayscale image whose single pixel is black (value 0). -/
def imgBlack1 : Img :=
  { width := 1, height := 1, mode := .L, px := fun _ _ => .gray 0 }

/-- A decoder instantiation that decodes everything to `imgBlack1`. -/
def decodeBlack : Decoder := fun _ => some imgBlack1

/-- A decoder instantiation that decodes nothing. -/
def decodeNone : Decoder := fun _ => none

/-- A mean-map instantiation that is constantly 5; realized, e.g., at the
centre of a 31x31 patch of constant brightness 5 whose centre pixel is 0:
the Gaussian-weighted mean there is (1 - w0) * 5 with centre weight
w0 about 0.0064, i.e. about 4.97, which rounds to 5. -/
def gaussConst5 : GaussMean := fun _ _ _ => 5

/-- Claim C1 counterexample: the claim classifies a pixel as background
(255) whenever it is NOT strictly below the locally adjusted threshold
`mean - 5`, but `THRESH_BINARY` outputs foreground (0) also at equality
`src = mean - 5`.  Concretely, at a black pixel (value 0) whose
Gaussian-weighted local mean is 5 the threshold is 0; the code outputs 0
while the rule of the claim mandates 255. -/
theorem clean_threshold_rule_cex :
    processCleanSketch decodeBlack gaussConst5 [] =
      .ok (adaptiveThresholdG gaussConst5 imgBlack1 255 5) ∧
    (adaptiveThresholdG gaussConst5 imgBlack1 255 5).px 0 0 = .gray 0 ∧
    specC1Pixel 0 5 = 255 := by
  refine ⟨rfl, by decide, by decide⟩

/-- Claim C1 (amended): for every decodable input, `process_clean_sketch`
classifies each pixel against the Gaussian-weighted 31x31 local mean
minus the bias 5: output 0 (foreground) when the pixel brightness is at
or below that locally adjusted threshold, 255 (background) when it is
strictly above it. -/
theorem clean_threshold_rule (decode : Decoder) (gauss : GaussMean)
    (b : Bytes) (img out : Img) (hdec : decode b = some img)
    (hout : processCleanSketch decode gauss b = .ok out) :
    ∀ x y, out.px x y =
      .gray (specC1PixelAmended (grayVal (img.px x y)) (gauss img x y)) := by
  unfold processCleanSketch at hout
  rw [hdec] at hout
  injection hout with h2
  rw [← h2]
  intro x y
  by_cases h : (grayVal (img.px x y) : Int) ≤ (gauss img x y : Int) - 5
  · have hn : ¬((grayVal (img.px x y) : Int) > (gauss img x y : Int) - 5) :=
      by omega
    simp [adaptiveThresholdG, specC1PixelAmended, hn, h]
  · have hy : (grayVal (img.px x y) : Int) > (gauss img x y : Int) - 5 :=
      by omega
    simp [adaptiveThresholdG, specC1PixelAmended, hy, h]

/-- Witness for the amended C1 at a concrete decodable input. -/
theorem clean_threshold_rule_witness :
    (adaptiveThresholdG gaussConst5 imgBlack1 255 5).px 0 0 =
      .gray (specC1PixelAmended 0 5) :=
  clean_threshold_rule decodeBlack gaussConst5 [] imgBlack1
    (adaptiveThresholdG gaussConst5 imgBlack1 255 5) rfl rfl 0 0

/-- Claim C3: for every input that decodes, the cleaned sketch is
strictly binary — every pixel is exactly 0 or exactly 255 — and its
dimensions equal the dimensions of the decoded input. -/
theorem clean_binary_dims (decode : Decoder) (gauss : GaussMean)
    (b : Bytes) (img : Img) (hdec : decode b = some img) :
    ∃ out, processCleanSketch decode gauss b = .ok out ∧
      out.width = img.width ∧ out.height = img.height ∧
      ∀ x y, out.px x y = .gray 0 ∨ out.px x y = .gray 255 := by
  refine ⟨adaptiveThresholdG gauss img 255 5, ?_, rfl, rfl, ?_⟩
  · unfold processCleanSketch
    rw [hdec]
  · intro x y
    by_cases h : (grayVal (img.px x y) : Int) > (gauss img x y : Int) - 5
    · right
      simp [adaptiveThresholdG, h]
    · left
      simp [adaptiveThresholdG, h]

/-- Witness for C3 at a concrete decodable input. -/
theorem clean_binary_dims_witness :
    ∃ out, processCleanSketch decodeBlack gaussConst5 [] = .ok out ∧
      out.width = imgBlack1.width ∧ out.height = imgBlack1.height ∧
      ∀ x y, out.px x y = .gray 0 ∨ out.px x y = .gray 255 :=
  clean_binary_dims decodeBlack gaussConst5 [] imgBlack1 rfl

/-- A one-pixel RGB render with distinct channels. -/
def renderRGB1 : Img :=
  { width := 1, height := 1, mode := .RGB, px := fun _ _ => .rgb 200 100 50 }

/-- A one-pixel all-white grayscale mask. -/
def maskWhite1 : Img :=
  { width := 1, height := 1, mode := .L, px := fun _ _ => .gray 255 }

/-- A one-pixel mid-gray grayscale mask. -/
def maskGray1 : Img :=
  { width := 1, height := 1, mode := .L, px := fun _ _ => .gray 100 }

/-- A one-pixel solid-white RGB render. -/
def renderWhite1 : Img :=
  { width := 1, height := 1, mode := .RGB, px := fun _ _ => .rgb 255 255 255 }

/-- A one-pixel pure-red RGB mask. -/
def maskRed1 : Img :=
  { width := 1, height := 1, mode := .RGB, px := fun _ _ => .rgb 255 0 0 }

/-- A one-pixel pure-green RGB mask. -/
def maskGreen1 : Img :=
  { width := 1, height := 1, mode := .RGB, px := fun _ _ => .rgb 0 255 0 }

/-- A darker one-pixel grayscale mask for the monotonicity claim. -/
def maskDark1 : Img :=
  { width := 1, height := 1, mode := .L, px := fun _ _ => .gray 50 }

/-- A lighter one-pixel grayscale mask for the monotonicity claim. -/
def maskLight1 : Img :=
  { width := 1, height := 1, mode := .L, px := fun _ _ => .gray 150 }

/-- Claim C2 counterexample: for an RGB mask the code multiplies each
channel by the OWN channel of the mask (`convert` to RGB keeps the
channels), not by its single grayscale intensity.  White render times
pure red mask gives red channel 255, whereas the claimed
`round(render_pixel * mask_gray_pixel / 255)` with the red-mask
grayscale intensity 76 would give 76. -/
theorem composite_pixel_formula_cex :
    processMultiply resample0 renderWhite1 maskRed1 =
      .ok (multiplyCore (convertRGB renderWhite1) (convertRGB maskRed1)) ∧
    maskGrayIntensity (maskRed1.px 0 0) = 76 ∧
    pxR ((multiplyCore (convertRGB renderWhite1)
        (convertRGB maskRed1)).px 0 0) ≠
      specMultiplyPixel (pxR (renderWhite1.px 0 0))
        (maskGrayIntensity (maskRed1.px 0 0)) := by
  refine ⟨rfl, by decide, by decide⟩

/-- Claim C2 (amended): for every well-formed render and mask (any modes,
positive render dimensions), the composite has exactly the render
dimensions, is RGB, and each output channel equals
`round(render_channel * mask_channel / 255)`, which lies in `[0,255]`,
where `mask_channel` is the corresponding channel of the
resized-if-needed mask after RGB conversion (for a single-channel mask
this is its grayscale intensity in every channel). -/
theorem composite_pixel_formula (resample : Resample)
    (render sketch msk out : Img) (hwfR : ImgWF render) (hwfS : ImgWF sketch)
    (hmsk : reconcileSize resample render sketch = .ok msk)
    (hout : processMultiply resample render sketch = .ok out) :
    out.width = render.width ∧ out.height = render.height ∧
      out.mode = .RGB ∧
      ∀ x y,
        pxR (out.px x y) =
          specMultiplyPixel (pxR ((convertRGB render).px x y))
            (pxR ((convertRGB msk).px x y)) ∧
        pxG (out.px x y) =
          specMultiplyPixel (pxG ((convertRGB render).px x y))
            (pxG ((convertRGB msk).px x y)) ∧
        pxB (out.px x y) =
          specMultiplyPixel (pxB ((convertRGB render).px x y))
            (pxB ((convertRGB msk).px x y)) ∧
        pxR (out.px x y) ≤ 255 ∧ pxG (out.px x y) ≤ 255 ∧
        pxB (out.px x y) ≤ 255 := by
  unfold processMultiply at hout
  rw [hmsk] at hout
  have hout2 : multiplyChops (convertRGB render) (convertRGB msk) =
      .ok out := hout
  have hsz : imsize (convertRGB render) = imsize (convertRGB msk) :=
    (reconcileSize_ok_size hmsk).symm
  rw [multiplyChops_ok_of hsz rfl] at hout2
  injection hout2 with h2
  rw [← h2]
  refine ⟨rfl, rfl, rfl, ?_⟩
  intro x y
  obtain ⟨R, G, B, hR, hG, hB, hpxR⟩ :=
    rgbPx_of_RGB rfl (convertRGB_wf hwfR) x y
  obtain ⟨Mr, Mg, Mb, hMr, hMg, hMb, hpxM⟩ :=
    rgbPx_of_RGB rfl (convertRGB_wf (reconcileSize_ok_wf hwfS hmsk)) x y
  simp only [multiplyCore]
  rw [hpxR, hpxM]
  simp only [multiplyPx, pxR, pxG, pxB]
  exact ⟨muldiv255_eq_round R Mr hR hMr, muldiv255_eq_round G Mg hG hMg,
    muldiv255_eq_round B Mb hB hMb, muldiv255_le_255 R Mr hR hMr,
    muldiv255_le_255 G Mg hG hMg, muldiv255_le_255 B Mb hB hMb⟩

/-- Witness for the amended C2 at concrete images. -/
theorem composite_pixel_formula_witness :
    (multiplyCore (convertRGB renderRGB1) (convertRGB maskWhite1)).width =
        renderRGB1.width ∧
      (multiplyCore (convertRGB renderRGB1)
          (convertRGB maskWhite1)).height = renderRGB1.height ∧
      (multiplyCore (convertRGB renderRGB1)
          (convertRGB maskWhite1)).mode = .RGB ∧
      ∀ x y,
        pxR ((multiplyCore (convertRGB renderRGB1)
            (convertRGB maskWhite1)).px x y) =
          specMultiplyPixel (pxR ((convertRGB renderRGB1).px x y))
            (pxR ((convertRGB maskWhite1).px x y)) ∧
        pxG ((multiplyCore (convertRGB renderRGB1)
            (convertRGB maskWhite1)).px x y) =
          specMultiplyPixel (pxG ((convertRGB renderRGB1).px x y))
            (pxG ((convertRGB maskWhite1).px x y)) ∧
        pxB ((multiplyCore (convertRGB renderRGB1)
            (convertRGB maskWhite1)).px x y) =
          specMultiplyPixel (pxB ((convertRGB renderRGB1).px x y))
            (pxB ((convertRGB maskWhite1).px x y)) ∧
        pxR ((multiplyCore (convertRGB renderRGB1)
            (convertRGB maskWhite1)).px x y) ≤ 255 ∧
        pxG ((multiplyCore (convertRGB renderRGB1)
            (convertRGB maskWhite1)).px x y) ≤ 255 ∧
        pxB ((multiplyCore (convertRGB renderRGB1)
            (convertRGB maskWhite1)).px x y) ≤ 255 :=
  composite_pixel_formula resample0 renderRGB1 maskWhite1 maskWhite1
    (multiplyCore (convertRGB renderRGB1) (convertRGB maskWhite1))
    (fun _ _ => pixelWF_rgb (by norm_num) (by norm_num) (by norm_num))
    (fun _ _ => pixelWF_gray (by norm_num)) rfl rfl

/-- Claim C4 counterexample: the mask is NOT reduced to a single-channel
grayscale intensity — `convert` to RGB on an RGB mask keeps its channels
— so the blend can tint: white render times pure green mask yields
(0,255,0), whose red and green channels differ. -/
theorem composite_colorless_cex :
    processMultiply resample0 renderWhite1 maskGreen1 =
      .ok (multiplyCore (convertRGB renderWhite1)
        (convertRGB maskGreen1)) ∧
    (multiplyCore (convertRGB renderWhite1) (convertRGB maskGreen1)).px
        0 0 = .rgb 0 255 0 ∧
    pxR ((multiplyCore (convertRGB renderWhite1)
        (convertRGB maskGreen1)).px 0 0) ≠
      pxG ((multiplyCore (convertRGB renderWhite1)
        (convertRGB maskGreen1)).px 0 0) := by
  refine ⟨rfl, by decide, by decide⟩

/-- Claim C4 (amended): when the mask is single-channel grayscale (as the
cleaned sketch produced by the pipeline always is), its intensity is
broadcast identically across the three channels, so the blend is
colorless: each output channel is the render channel multiplied by the
same mask intensity, and never exceeds the render channel.  (An RGB
mask instead keeps its own channels and can tint — see the
counterexample.) -/
theorem composite_gray_mask_colorless (resample : Resample)
    (render sketch msk out : Img) (hwfR : ImgWF render) (hwfS : ImgWF sketch)
    (hL : sketch.mode = .L)
    (hmsk : reconcileSize resample render sketch = .ok msk)
    (hout : processMultiply resample render sketch = .ok out) :
    ∀ x y, ∃ m, m ≤ 255 ∧
      out.px x y =
        .rgb (muldiv255 (pxR ((convertRGB render).px x y)) m)
          (muldiv255 (pxG ((convertRGB render).px x y)) m)
          (muldiv255 (pxB ((convertRGB render).px x y)) m) ∧
      muldiv255 (pxR ((convertRGB render).px x y)) m ≤
        pxR ((convertRGB render).px x y) ∧
      muldiv255 (pxG ((convertRGB render).px x y)) m ≤
        pxG ((convertRGB render).px x y) ∧
      muldiv255 (pxB ((convertRGB render).px x y)) m ≤
        pxB ((convertRGB render).px x y) := by
  unfold processMultiply at hout
  rw [hmsk] at hout
  have hout2 : multiplyChops (convertRGB render) (convertRGB msk) =
      .ok out := hout
  have hsz : imsize (convertRGB render) = imsize (convertRGB msk) :=
    (reconcileSize_ok_size hmsk).symm
  rw [multiplyChops_ok_of hsz rfl] at hout2
  injection hout2 with h2
  rw [← h2]
  intro x y
  have hLm : msk.mode = .L := by
    rw [reconcileSize_ok_mode hmsk, hL]
  obtain ⟨m, hm, hpxm⟩ :=
    grayPx_of_L hLm (reconcileSize_ok_wf hwfS hmsk) x y
  obtain ⟨R, G, B, hR, hG, hB, hpxR⟩ :=
    rgbPx_of_RGB rfl (convertRGB_wf hwfR) x y
  have hconv : (convertRGB msk).px x y = .rgb m m m := by
    rw [convertRGB_px, hpxm]
    simp [pxR, pxG, pxB]
  refine ⟨m, hm, ?_, ?_, ?_, ?_⟩
  · simp only [multiplyCore]
    rw [hpxR, hconv]
    simp only [multiplyPx, pxR, pxG, pxB]
  · rw [hpxR]
    simp only [pxR]
    exact muldiv255_le_left R m hR hm
  · rw [hpxR]
    simp only [pxG]
    exact muldiv255_le_left G m hG hm
  · rw [hpxR]
    simp only [pxB]
    exact muldiv255_le_left B m hB hm

/-- Witness for the amended C4 at concrete images. -/
theorem composite_gray_mask_colorless_witness :
    ∃ m, m ≤ 255 ∧
      (multiplyCore (convertRGB renderRGB1) (convertRGB maskGray1)).px
          0 0 =
        .rgb (muldiv255 (pxR ((convertRGB renderRGB1).px 0 0)) m)
          (muldiv255 (pxG ((convertRGB renderRGB1).px 0 0)) m)
          (muldiv255 (pxB ((convertRGB renderRGB1).px 0 0)) m) ∧
      muldiv255 (pxR ((convertRGB renderRGB1).px 0 0)) m ≤
        pxR ((convertRGB renderRGB1).px 0 0) ∧
      muldiv255 (pxG ((convertRGB renderRGB1).px 0 0)) m ≤
        pxG ((convertRGB renderRGB1).px 0 0) ∧
      muldiv255 (pxB ((convertRGB renderRGB1).px 0 0)) m ≤
        pxB ((convertRGB renderRGB1).px 0 0) :=
  composite_gray_mask_colorless resample0 renderRGB1 maskGray1 maskGray1
    (multiplyCore (convertRGB renderRGB1) (convertRGB maskGray1))
    (fun _ _ => pixelWF_rgb (by norm_num) (by norm_num) (by norm_num))
    (fun _ _ => pixelWF_gray (by norm_num)) rfl rfl rfl 0 0

/-- Claim C7: compositing an RGB render with an all-white mask of the
same dimensions returns the render exactly, pixel for pixel. -/
theorem composite_white_identity (resample : Resample) (render mask : Img)
    (hmode : render.mode = .RGB) (hwf : ImgWF render)
    (hsz : imsize render = imsize mask)
    (hwhite : ∀ x y, mask.px x y = .gray 255) :
    ∃ out, processMultiply resample render mask = .ok out ∧
      out.width = render.width ∧ out.height = render.height ∧
      out.mode = render.mode ∧ ∀ x y, out.px x y = render.px x y := by
  have hrec : reconcileSize resample render mask = .ok mask := by
    unfold reconcileSize
    rw [if_neg (not_ne_iff.mpr hsz)]
  refine ⟨multiplyCore (convertRGB render) (convertRGB mask), ?_,
    rfl, rfl, hmode.symm, ?_⟩
  · unfold processMultiply
    rw [hrec]
    exact multiplyChops_ok_of hsz rfl
  · intro x y
    obtain ⟨R, G, B, hR, hG, hB, hpx⟩ := rgbPx_of_RGB hmode hwf x y
    have hcr : (convertRGB render).px x y = .rgb R G B := by
      rw [convertRGB_px, hpx]
      simp [pxR, pxG, pxB]
    have hcm : (convertRGB mask).px x y = .rgb 255 255 255 := by
      rw [convertRGB_px, hwhite x y]
      simp [pxR, pxG, pxB]
    simp only [multiplyCore]
    rw [hcr, hcm, hpx]
    simp only [multiplyPx]
    rw [muldiv255_white R hR, muldiv255_white G hG, muldiv255_white B hB]

/-- Witness for C7 at concrete images. -/
theorem composite_white_identity_witness :
    ∃ out, processMultiply resample0 renderRGB1 maskWhite1 = .ok out ∧
      out.width = renderRGB1.width ∧ out.height = renderRGB1.height ∧
      out.mode = renderRGB1.mode ∧
      ∀ x y, out.px x y = renderRGB1.px x y :=
  composite_white_identity resample0 renderRGB1 maskWhite1 rfl
    (fun _ _ => pixelWF_rgb (by norm_num) (by norm_num) (by norm_num))
    rfl (fun _ _ => rfl)

/-- Claim C8: for a fixed render and two same-size grayscale masks where
the first is pointwise at most the second (darkened), every channel of
the composite for the darker mask is at most the corresponding channel
for the lighter mask. -/
theorem composite_mono (resample : Resample) (render m1 m2 out1 out2 : Img)
    (hL1 : m1.mode = .L) (hL2 : m2.mode = .L)
    (hwf1 : ImgWF m1) (hwf2 : ImgWF m2)
    (hs1 : imsize render = imsize m1) (hs2 : imsize render = imsize m2)
    (hdark : ∀ x y, grayVal (m1.px x y) ≤ grayVal (m2.px x y))
    (ho1 : processMultiply resample render m1 = .ok out1)
    (ho2 : processMultiply resample render m2 = .ok out2) :
    ∀ x y, pxR (out1.px x y) ≤ pxR (out2.px x y) ∧
      pxG (out1.px x y) ≤ pxG (out2.px x y) ∧
      pxB (out1.px x y) ≤ pxB (out2.px x y) := by
  have hrec1 : reconcileSize resample render m1 = .ok m1 := by
    unfold reconcileSize
    rw [if_neg (not_ne_iff.mpr hs1)]
  have hrec2 : reconcileSize resample render m2 = .ok m2 := by
    unfold reconcileSize
    rw [if_neg (not_ne_iff.mpr hs2)]
  unfold processMultiply at ho1 ho2
  rw [hrec1] at ho1
  rw [hrec2] at ho2
  have ho1b : multiplyChops (convertRGB render) (convertRGB m1) =
      .ok out1 := ho1
  have ho2b : multiplyChops (convertRGB render) (convertRGB m2) =
      .ok out2 := ho2
  have hs1c : imsize (convertRGB render) = imsize (convertRGB m1) := hs1
  have hs2c : imsize (convertRGB render) = imsize (convertRGB m2) := hs2
  rw [multiplyChops_ok_of hs1c rfl] at ho1b
  rw [multiplyChops_ok_of hs2c rfl] at ho2b
  injection ho1b with h1b
  injection ho2b with h2b
  rw [← h1b, ← h2b]
  intro x y
  obtain ⟨v1, hv1, hp1⟩ := grayPx_of_L hL1 hwf1 x y
  obtain ⟨v2, hv2, hp2⟩ := grayPx_of_L hL2 hwf2 x y
  have hle : v1 ≤ v2 := by
    have := hdark x y
    rw [hp1, hp2] at this
    exact this
  have hc1 : (convertRGB m1).px x y = .rgb v1 v1 v1 := by
    rw [convertRGB_px, hp1]
    simp [pxR, pxG, pxB]
  have hc2 : (convertRGB m2).px x y = .rgb v2 v2 v2 := by
    rw [convertRGB_px, hp2]
    simp [pxR, pxG, pxB]
  simp only [multiplyCore]
  rw [hc1, hc2, convertRGB_px]
  simp only [multiplyPx, pxR, pxG, pxB]
  exact ⟨muldiv255_mono _ hle, muldiv255_mono _ hle, muldiv255_mono _ hle⟩

/-- Witness for C8 at concrete images. -/
theorem composite_mono_witness :
    pxR ((multiplyCore (convertRGB renderRGB1)
        (convertRGB maskDark1)).px 0 0) ≤
      pxR ((multiplyCore (convertRGB renderRGB1)
        (convertRGB maskLight1)).px 0 0) ∧
    pxG ((multiplyCore (convertRGB renderRGB1)
        (convertRGB maskDark1)).px 0 0) ≤
      pxG ((multiplyCore (convertRGB renderRGB1)
        (convertRGB maskLight1)).px 0 0) ∧
    pxB ((multiplyCore (convertRGB renderRGB1)
        (convertRGB maskDark1)).px 0 0) ≤
      pxB ((multiplyCore (convertRGB renderRGB1)
        (convertRGB maskLight1)).px 0 0) :=
  composite_mono resample0 renderRGB1 maskDark1 maskLight1
    (multiplyCore (convertRGB renderRGB1) (convertRGB maskDark1))
    (multiplyCore (convertRGB renderRGB1) (convertRGB maskLight1))
    rfl rfl (fun _ _ => pixelWF_gray (by norm_num))
    (fun _ _ => pixelWF_gray (by norm_num)) rfl rfl
    (fun _ _ => by show (50 : Nat) ≤ 150; norm_num) rfl rfl 0 0

/-- A two-object heap for the frame-property witness. -/
def store0 : Store := { imgs := [renderRGB1, maskWhite1] }

/-- Witness for C10 at a concrete heap. -/
theorem processMultiplyHeap_frame_witness :
    readImg (processMultiplyHeap resample0 store0 0 1).1 0 =
      readImg store0 0 :=
  (processMultiplyHeap_frame resample0 store0 0 1 (by decide)
    (by decide)).1 0 (by decide)

end DesignBot
